import Mathlib

/-!
Verification of the version-selection algorithm ("VersionSelector") and of the
work-item-link-type controller conversions of this repository.

The selection algorithm `getMostRecentByDeploymentVersion` is exercised by
`src/kubernetes/deployments_kubeclient_whitebox_test.go` but its body is not part
of the given sources, so it is modelled from the specification (see the doc
comments marked `Modelled from the spec:`).  The controller code
(`src/controller/work_item_link_type.go`) is embedded directly from the source.
-/

/-! ### Data model: versioned records -/

/-- A named entity carrying an optional version marker.  In the Go tests a
record is a `v1.ReplicationController` whose name is `ObjectMeta.Name` and whose
version marker is the `openshift.io/deployment-config.latest-version`
annotation string; `createRC` leaves the annotation absent for the empty
string, which is modelled by `none`. -/
structure VersionedRecord where
  name : String
  version : Option String
deriving DecidableEq, Repr

/-- The single error kind of the selector: `MalformedVersion(recordName, rawValue)`. -/
structure MalformedVersion where
  recordName : String
  rawValue : String
deriving DecidableEq, Repr

/-- Numeric value of a list of decimal digit characters. -/
def digitsVal (l : List Char) : Nat :=
  l.foldl (fun n c => n * 10 + (c.toNat - 48)) 0

/-- Modelled from the spec: a present version marker "must parse as a
non-negative integer".  A string parses exactly when it is a non-empty string
of decimal digits. -/
def parseVersion (s : String) : Option Nat :=
  if !s.data.isEmpty && s.data.all Char.isDigit then some (digitsVal s.data) else none

/-- The parsed version of a record: `none` when the marker is unset or fails to
parse. -/
def parsedVersion (r : VersionedRecord) : Option Nat :=
  r.version.bind parseVersion

/-! ### The precedence order used by the selector

The spec orders records primarily by parsed version (an unset marker has the
lowest possible precedence, strictly below every parsed version including 0)
and breaks ties deterministically by the lexically greatest name.  The
comparisons are `Bool`-valued so that every concrete run of the selector
evaluates by `decide`. -/

/-- Strict lexicographic comparison of char lists (by code point). -/
def charListLt : List Char → List Char → Bool
  | _, [] => false
  | [], _ :: _ => true
  | a :: as, b :: bs =>
    if a.toNat < b.toNat then true
    else if b.toNat < a.toNat then false
    else charListLt as bs

/-- Strict comparison of optional parsed versions: unset (`none`) is strictly
below every parsed version. -/
def optVerLt : Option Nat → Option Nat → Bool
  | none, none => false
  | none, some _ => true
  | some _, none => false
  | some a, some b => decide (a < b)

/-- The precedence key of a record: its parsed version together with its name. -/
def recKey (r : VersionedRecord) : Option Nat × List Char :=
  (parsedVersion r, r.name.data)

/-- Strict order on precedence keys: by parsed version first, then by name. -/
def rawKeyLt (a b : Option Nat × List Char) : Bool :=
  optVerLt a.1 b.1 || (decide (a.1 = b.1) && charListLt a.2 b.2)

/-- `keyLt x y` holds when `y` takes precedence over (is "more recent" than) `x`. -/
def keyLt (x y : VersionedRecord) : Bool :=
  rawKeyLt (recKey x) (recKey y)

/-- Keep the later of the current best record and the next record. -/
def pickLater (best x : VersionedRecord) : VersionedRecord :=
  if keyLt best x then x else best

/-- Fold of `pickLater` over the collection, starting from a first record. -/
def selectFrom (r : VersionedRecord) (rs : List VersionedRecord) : VersionedRecord :=
  rs.foldl pickLater r

/-- Modelled from the spec: every present version marker must parse; the first
record whose marker fails to parse is reported in a `MalformedVersion` error. -/
def checkVersions : List VersionedRecord → Option MalformedVersion
  | [] => none
  | r :: rs =>
    match r.version with
    | some s => if (parseVersion s).isSome then checkVersions rs else some ⟨r.name, s⟩
    | none => checkVersions rs

/-- Modelled from the spec: `SelectMostRecent(records) -> (optional record, error)`.
Fails with `MalformedVersion` if any present marker does not parse; returns
`none` on the empty collection; otherwise returns the record with the strictly
greatest parsed version, ties broken by the lexically greatest name, records
with unset markers ranking strictly below every parsed version.  The body of
`getMostRecentByDeploymentVersion` is absent from the given sources (only its
whitebox test is present), hence this model. -/
def getMostRecentByDeploymentVersion (records : List VersionedRecord) :
    Except MalformedVersion (Option VersionedRecord) :=
  match checkVersions records with
  | some e => Except.error e
  | none =>
    match records with
    | [] => Except.ok none
    | r :: rs => Except.ok (some (selectFrom r rs))

/-! ### Order-theoretic facts about the precedence comparison -/

theorem charListLt_cons (a b : Char) (as bs : List Char) :
    charListLt (a :: as) (b :: bs) =
      if a.toNat < b.toNat then true
      else if b.toNat < a.toNat then false
      else charListLt as bs := rfl

theorem charListLt_irrefl (l : List Char) : charListLt l l = false := by
  induction l with
  | nil => rfl
  | cons a as ih => simp [charListLt_cons, ih]

theorem charListLt_trans : ∀ {l₁ l₂ l₃ : List Char},
    charListLt l₁ l₂ = true → charListLt l₂ l₃ = true → charListLt l₁ l₃ = true
  | _, l₂, [], _, h₂ => by cases l₂ <;> simp [charListLt] at h₂
  | [], _, _ :: _, _, _ => rfl
  | _ :: _, [], _, h₁, _ => by simp [charListLt] at h₁
  | a :: as, b :: bs, c :: cs, h₁, h₂ => by
    rw [charListLt_cons] at h₁ h₂ ⊢
    rcases Nat.lt_trichotomy a.toNat b.toNat with hab | hab | hab
    · rcases Nat.lt_trichotomy b.toNat c.toNat with hbc | hbc | hbc
      · simp [Nat.lt_trans hab hbc]
      · rw [← hbc]; simp [hab]
      · simp [hbc, Nat.lt_asymm hbc] at h₂
    · rcases Nat.lt_trichotomy b.toNat c.toNat with hbc | hbc | hbc
      · have hac : a.toNat < c.toNat := by rw [hab]; exact hbc
        simp [hac]
      · rw [hab] at h₁
        rw [← hbc] at h₂
        rw [hab, hbc]
        simp [Nat.lt_irrefl] at h₁ h₂ ⊢
        exact charListLt_trans h₁ h₂
      · simp [hbc, Nat.lt_asymm hbc] at h₂
    · simp [hab, Nat.lt_asymm hab] at h₁

theorem charListLt_conn : ∀ {l₁ l₂ : List Char},
    charListLt l₁ l₂ = false → charListLt l₂ l₁ = false → l₁ = l₂
  | [], [], _, _ => rfl
  | [], _ :: _, h₁, _ => by simp [charListLt] at h₁
  | _ :: _, [], _, h₂ => by simp [charListLt] at h₂
  | a :: as, b :: bs, h₁, h₂ => by
    rw [charListLt_cons] at h₁ h₂
    rcases Nat.lt_trichotomy a.toNat b.toNat with hab | hab | hab
    · simp [hab] at h₁
    · have hc : a = b := Char.ext (UInt32.ext hab)
      subst hc
      simp [Nat.lt_irrefl] at h₁ h₂
      rw [charListLt_conn h₁ h₂]
    · simp [hab, Nat.lt_asymm hab] at h₂

theorem optVerLt_irrefl (o : Option Nat) : optVerLt o o = false := by
  cases o <;> simp [optVerLt]

theorem optVerLt_trans {a b c : Option Nat} (h₁ : optVerLt a b = true)
    (h₂ : optVerLt b c = true) : optVerLt a c = true := by
  cases a <;> cases b <;> cases c <;> simp_all [optVerLt] <;> omega

theorem optVerLt_conn {a b : Option Nat} (h₁ : optVerLt a b = false)
    (h₂ : optVerLt b a = false) : a = b := by
  cases a <;> cases b <;> simp_all [optVerLt] <;> omega

theorem rawKeyLt_irrefl (k : Option Nat × List Char) : rawKeyLt k k = false := by
  simp [rawKeyLt, optVerLt_irrefl, charListLt_irrefl]

theorem rawKeyLt_trans {k₁ k₂ k₃ : Option Nat × List Char}
    (h₁ : rawKeyLt k₁ k₂ = true) (h₂ : rawKeyLt k₂ k₃ = true) :
    rawKeyLt k₁ k₃ = true := by
  simp only [rawKeyLt, Bool.or_eq_true, Bool.and_eq_true, decide_eq_true_eq] at h₁ h₂ ⊢
  rcases h₁ with h₁ | ⟨e₁, n₁⟩
  · rcases h₂ with h₂ | ⟨e₂, n₂⟩
    · exact Or.inl (optVerLt_trans h₁ h₂)
    · exact Or.inl (by rw [← e₂]; exact h₁)
  · rcases h₂ with h₂ | ⟨e₂, n₂⟩
    · exact Or.inl (by rw [e₁]; exact h₂)
    · exact Or.inr ⟨e₁.trans e₂, charListLt_trans n₁ n₂⟩

theorem rawKeyLt_conn {k₁ k₂ : Option Nat × List Char}
    (h₁ : rawKeyLt k₁ k₂ = false) (h₂ : rawKeyLt k₂ k₁ = false) : k₁ = k₂ := by
  simp only [rawKeyLt, Bool.or_eq_false_iff, Bool.and_eq_false_iff,
    decide_eq_false_iff_not] at h₁ h₂
  have hv : k₁.1 = k₂.1 := optVerLt_conn h₁.1 h₂.1
  have hn : k₁.2 = k₂.2 := by
    rcases h₁.2 with h | h
    · exact absurd hv h
    · rcases h₂.2 with h' | h'
      · exact absurd hv.symm h'
      · exact charListLt_conn h h'
  exact Prod.ext hv hn

theorem keyLt_irrefl (x : VersionedRecord) : keyLt x x = false :=
  rawKeyLt_irrefl _

theorem keyLt_trans {x y z : VersionedRecord} (h₁ : keyLt x y = true)
    (h₂ : keyLt y z = true) : keyLt x z = true :=
  rawKeyLt_trans h₁ h₂

theorem keyLt_of_lt_of_not_lt {x y z : VersionedRecord} (h₁ : keyLt x z = true)
    (h₂ : keyLt y z = false) : keyLt x y = true := by
  cases h : keyLt x y
  · cases h' : keyLt y x
    · have : recKey y = recKey x := rawKeyLt_conn h' h
      have : keyLt y z = keyLt x z := by unfold keyLt; rw [this]
      rw [this, h₁] at h₂
      exact absurd h₂ (by simp)
    · have := rawKeyLt_trans (show rawKeyLt (recKey y) (recKey x) = true from h') h₁
      rw [show rawKeyLt (recKey y) (recKey z) = keyLt y z from rfl, h₂] at this
      exact absurd this (by simp)
  · rfl

theorem keyLt_of_verLt {x y : VersionedRecord}
    (h : optVerLt (parsedVersion x) (parsedVersion y) = true) : keyLt x y = true := by
  simp [keyLt, rawKeyLt, recKey, h]

/-! ### The selected record is a maximum of the collection -/

theorem selectFrom_cons (r y : VersionedRecord) (ys : List VersionedRecord) :
    selectFrom r (y :: ys) = selectFrom (pickLater r y) ys := rfl

theorem pickLater_cases (r y : VersionedRecord) : pickLater r y = r ∨ pickLater r y = y := by
  unfold pickLater
  split
  · exact Or.inr rfl
  · exact Or.inl rfl

theorem selectFrom_mem (r : VersionedRecord) (rs : List VersionedRecord) :
    selectFrom r rs ∈ r :: rs := by
  induction rs generalizing r with
  | nil => simp [selectFrom]
  | cons y ys ih =>
    rw [selectFrom_cons]
    have h := ih (pickLater r y)
    rcases List.mem_cons.mp h with h' | h'
    · rcases pickLater_cases r y with hp | hp <;> rw [h', hp] <;> simp
    · simp [h']

theorem selectFrom_not_lt (r : VersionedRecord) (rs : List VersionedRecord) :
    ∀ x ∈ r :: rs, keyLt (selectFrom r rs) x = false := by
  induction rs generalizing r with
  | nil =>
    intro x hx
    rw [List.mem_singleton] at hx
    subst hx
    simp [selectFrom, keyLt_irrefl]
  | cons y ys ih =>
    intro x hx
    rw [selectFrom_cons]
    have hd := ih (pickLater r y) (pickLater r y) (List.mem_cons_self _ _)
    rcases List.mem_cons.mp hx with heq | hx'
    · subst heq
      cases hk : keyLt x y
      · have hp : pickLater x y = x := by simp [pickLater, hk]
        rw [hp] at hd ⊢
        exact hd
      · have hp : pickLater x y = y := by simp [pickLater, hk]
        rw [hp] at hd ⊢
        cases hs : keyLt (selectFrom y ys) x
        · rfl
        · exact absurd (keyLt_trans hs hk) (by simp [hd])
    · rcases List.mem_cons.mp hx' with heq | hx''
      · subst heq
        cases hk : keyLt r x
        · have hp : pickLater r x = r := by simp [pickLater, hk]
          rw [hp] at hd ⊢
          cases hs : keyLt (selectFrom r ys) x
          · rfl
          · exact absurd (keyLt_of_lt_of_not_lt hs hk) (by simp [hd])
        · have hp : pickLater r x = x := by simp [pickLater, hk]
          rw [hp] at hd ⊢
          exact hd
      · exact ih (pickLater r y) x (List.mem_cons_of_mem _ hx'')

/-! ### Facts about the malformed-version check -/

theorem checkVersions_eq_none_iff (records : List VersionedRecord) :
    checkVersions records = none ↔
      ∀ x ∈ records, ∀ s, x.version = some s → (parseVersion s).isSome = true := by
  induction records with
  | nil => simp [checkVersions]
  | cons r rs ih =>
    cases hrv : r.version with
    | none =>
      simp only [checkVersions, hrv, ih, List.forall_mem_cons]
      constructor
      · intro h
        refine ⟨?_, h⟩
        intro s hs
        cases hs
      · intro h
        exact h.2
    | some s =>
      cases hps : (parseVersion s).isSome with
      | true =>
        simp only [checkVersions, hrv, hps, if_true, ih, List.forall_mem_cons]
        constructor
        · intro h
          refine ⟨?_, h⟩
          intro t ht
          cases ht
          exact hps
        · intro h
          exact h.2
      | false =>
        simp only [checkVersions, hrv, hps, if_false, List.forall_mem_cons]
        constructor
        · intro h
          cases h
        · intro h
          have := h.1 s rfl
          rw [hps] at this
          cases this

theorem checkVersions_eq_some_of_bad : ∀ (records : List VersionedRecord),
    (∃ x ∈ records, ∃ s, x.version = some s ∧ parseVersion s = none) →
    ∃ e, checkVersions records = some e
  | [], h => by simp at h
  | r :: rs, h => by
    rcases h with ⟨x, hx, s, hvs, hps⟩
    rcases List.mem_cons.mp hx with heq | hx'
    · subst heq
      refine ⟨⟨x.name, s⟩, ?_⟩
      simp [checkVersions, hvs, hps]
    · rcases checkVersions_eq_some_of_bad rs ⟨x, hx', s, hvs, hps⟩ with ⟨e, he⟩
      cases hrv : r.version with
      | none => exact ⟨e, by simp [checkVersions, hrv, he]⟩
      | some t =>
        cases hpt : (parseVersion t).isSome with
        | true => exact ⟨e, by simp [checkVersions, hrv, hpt, he]⟩
        | false => exact ⟨⟨r.name, t⟩, by simp [checkVersions, hrv, hpt]⟩

theorem checkVersions_some_spec : ∀ {records : List VersionedRecord} {e : MalformedVersion},
    checkVersions records = some e →
    ∃ x ∈ records, x.name = e.recordName ∧ x.version = some e.rawValue ∧
      parseVersion e.rawValue = none
  | [], e, h => by simp [checkVersions] at h
  | r :: rs, e, h => by
    cases hrv : r.version with
    | none =>
      have h' : checkVersions rs = some e := by simpa [checkVersions, hrv] using h
      rcases checkVersions_some_spec h' with ⟨x, hx, hs⟩
      exact ⟨x, List.mem_cons_of_mem _ hx, hs⟩
    | some s =>
      cases hps : (parseVersion s).isSome with
      | true =>
        have h' : checkVersions rs = some e := by simpa [checkVersions, hrv, hps] using h
        rcases checkVersions_some_spec h' with ⟨x, hx, hs⟩
        exact ⟨x, List.mem_cons_of_mem _ hx, hs⟩
      | false =>
        have h' : (⟨r.name, s⟩ : MalformedVersion) = e := by
          simpa [checkVersions, hrv, hps] using h
        refine ⟨r, List.mem_cons_self _ _, ?_, ?_, ?_⟩
        · rw [← h']
        · rw [← h']
          exact hrv
        · rw [← h']
          cases hpv : parseVersion s with
          | none => rfl
          | some v => rw [hpv] at hps; cases hps

/-- Two strings with the same character data are equal. -/
theorem string_eq_of_data_eq {a b : String} (h : a.data = b.data) : a = b := by
  cases a
  cases b
  exact congrArg String.mk h

/-- Any successfully selected record belongs to the collection and no record of
the collection takes precedence over it. -/
theorem selected_spec {records : List VersionedRecord} {r : VersionedRecord}
    (h : getMostRecentByDeploymentVersion records = Except.ok (some r)) :
    r ∈ records ∧ ∀ x ∈ records, keyLt r x = false := by
  cases records with
  | nil => simp [getMostRecentByDeploymentVersion, checkVersions] at h
  | cons a rs =>
    cases hchk : checkVersions (a :: rs) with
    | some e => simp [getMostRecentByDeploymentVersion, hchk] at h
    | none =>
      have h' : selectFrom a rs = r := by
        simpa [getMostRecentByDeploymentVersion, hchk] using h
      subst h'
      exact ⟨selectFrom_mem a rs, selectFrom_not_lt a rs⟩

example :
    getMostRecentByDeploymentVersion
      [⟨"world", some "1"⟩, ⟨"hello", some "2"⟩] =
      Except.ok (some ⟨"hello", some "2"⟩) := rfl

example :
    getMostRecentByDeploymentVersion
      [⟨"world", some "1"⟩, ⟨"hello", some "Not a number"⟩] =
      Except.error ⟨"hello", "Not a number"⟩ := rfl

example :
    getMostRecentByDeploymentVersion
      [⟨"world", none⟩, ⟨"hello", some "2"⟩] =
      Except.ok (some ⟨"hello", some "2"⟩) := rfl

example :
    getMostRecentByDeploymentVersion
      [⟨"world", some "1"⟩, ⟨"hello", none⟩] =
      Except.ok (some ⟨"world", some "1"⟩) := rfl


/-! ### The claims about the version selector -/

/-- Claim C1: for every collection in which every present version marker parses,
the selector returns the record whose parsed version is strictly greatest (every
other record's precedence, unset markers included, lies strictly below it). -/
theorem C1_strictly_greatest_version_selected (records : List VersionedRecord)
    (r : VersionedRecord) (v : Nat)
    (hok : checkVersions records = none)
    (hr : r ∈ records) (hv : parsedVersion r = some v)
    (hmax : ∀ x ∈ records, x ≠ r → optVerLt (parsedVersion x) (some v) = true) :
    getMostRecentByDeploymentVersion records = Except.ok (some r) := by
  cases records with
  | nil => cases hr
  | cons a rs =>
    have heq : getMostRecentByDeploymentVersion (a :: rs) =
        Except.ok (some (selectFrom a rs)) := by
      simp [getMostRecentByDeploymentVersion, hok]
    rw [heq]
    have h1 : keyLt (selectFrom a rs) r = false := selectFrom_not_lt a rs r hr
    by_cases he : selectFrom a rs = r
    · rw [he]
    · have h2 : keyLt (selectFrom a rs) r = true := by
        apply keyLt_of_verLt
        rw [hv]
        exact hmax _ (selectFrom_mem a rs) he
      rw [h1] at h2
      cases h2

/-- Witness for C1 on the "Basic" test collection: version 2 beats version 1
irrespective of the records' names. -/
theorem C1_witness :
    checkVersions [⟨"world", some "1"⟩, ⟨"hello", some "2"⟩] = none ∧
    (⟨"hello", some "2"⟩ : VersionedRecord) ∈
      [(⟨"world", some "1"⟩ : VersionedRecord), ⟨"hello", some "2"⟩] ∧
    parsedVersion ⟨"hello", some "2"⟩ = some 2 ∧
    (∀ x ∈ [(⟨"world", some "1"⟩ : VersionedRecord), ⟨"hello", some "2"⟩],
        x ≠ ⟨"hello", some "2"⟩ → optVerLt (parsedVersion x) (some 2) = true) ∧
    getMostRecentByDeploymentVersion [⟨"world", some "1"⟩, ⟨"hello", some "2"⟩] =
      Except.ok (some ⟨"hello", some "2"⟩) :=
  ⟨rfl, by decide, rfl, by decide,
    C1_strictly_greatest_version_selected _ _ 2 rfl (by decide) rfl (by decide)⟩

/-- Claim C2: if any record's present version marker fails to parse, the whole
operation fails with a `MalformedVersion` error identifying a failing record; no
selected-record answer is returned. -/
theorem C2_malformed_version_fails (records : List VersionedRecord)
    (hbad : ∃ x ∈ records, ∃ s, x.version = some s ∧ parseVersion s = none) :
    ∃ e : MalformedVersion, getMostRecentByDeploymentVersion records = Except.error e ∧
      ∃ x ∈ records, x.name = e.recordName ∧ x.version = some e.rawValue ∧
        parseVersion e.rawValue = none := by
  rcases checkVersions_eq_some_of_bad records hbad with ⟨e, he⟩
  refine ⟨e, ?_, checkVersions_some_spec he⟩
  simp [getMostRecentByDeploymentVersion, he]

/-- Witness for C2 on the "Version Not Number" test collection. -/
theorem C2_witness :
    (∃ x ∈ [(⟨"world", some "1"⟩ : VersionedRecord), ⟨"hello", some "Not a number"⟩],
        ∃ s, x.version = some s ∧ parseVersion s = none) ∧
    ∃ e : MalformedVersion,
      getMostRecentByDeploymentVersion
          [⟨"world", some "1"⟩, ⟨"hello", some "Not a number"⟩] = Except.error e ∧
      ∃ x ∈ [(⟨"world", some "1"⟩ : VersionedRecord), ⟨"hello", some "Not a number"⟩],
        x.name = e.recordName ∧ x.version = some e.rawValue ∧
          parseVersion e.rawValue = none :=
  ⟨⟨⟨"hello", some "Not a number"⟩, by decide, "Not a number", rfl, rfl⟩,
    C2_malformed_version_fails _
      ⟨⟨"hello", some "Not a number"⟩, by decide, "Not a number", rfl, rfl⟩⟩

/-- Claim C3: the empty collection yields (none, no error). -/
theorem C3_empty_collection_ok :
    getMostRecentByDeploymentVersion [] = Except.ok none := rfl

/-- Claim C4: when the collection contains some record with a parseable version
marker, a record with an unset marker is never the selected one (unset ranks
strictly below every parsed version, 0 included). -/
theorem C4_unset_never_selected (records : List VersionedRecord)
    (r y : VersionedRecord)
    (hy : y ∈ records) (hyv : (parsedVersion y).isSome = true)
    (hsel : getMostRecentByDeploymentVersion records = Except.ok (some r)) :
    r.version ≠ none := by
  rcases selected_spec hsel with ⟨-, hmax⟩
  intro hrnone
  have h1 : keyLt r y = true := by
    apply keyLt_of_verLt
    rcases Option.isSome_iff_exists.mp hyv with ⟨w, hw⟩
    rw [hw]
    simp [parsedVersion, hrnone, optVerLt]
  rw [hmax y hy] at h1
  cases h1

/-- Witness for C4: with records {"world": unset, "hello": "0"}, the selected
record is not the unset one even against parsed version 0. -/
theorem C4_witness :
    (⟨"hello", some "0"⟩ : VersionedRecord) ∈
      [(⟨"world", none⟩ : VersionedRecord), ⟨"hello", some "0"⟩] ∧
    (parsedVersion ⟨"hello", some "0"⟩).isSome = true ∧
    getMostRecentByDeploymentVersion [⟨"world", none⟩, ⟨"hello", some "0"⟩] =
      Except.ok (some ⟨"hello", some "0"⟩) ∧
    (⟨"hello", some "0"⟩ : VersionedRecord).version ≠ none :=
  ⟨by decide, rfl, rfl,
    C4_unset_never_selected [⟨"world", none⟩, ⟨"hello", some "0"⟩]
      ⟨"hello", some "0"⟩ ⟨"hello", some "0"⟩ (by decide) rfl rfl⟩

/-- Claim C5: every non-empty collection whose present markers all parse yields
a non-none selected record and no error (and the selection is a member of the
collection). -/
theorem C5_nonempty_returns_record (records : List VersionedRecord)
    (hne : records ≠ []) (hok : checkVersions records = none) :
    ∃ r, getMostRecentByDeploymentVersion records = Except.ok (some r) ∧ r ∈ records := by
  cases records with
  | nil => exact absurd rfl hne
  | cons a rs =>
    exact ⟨selectFrom a rs, by simp [getMostRecentByDeploymentVersion, hok],
      selectFrom_mem a rs⟩

/-- Witness for C5 on the all-unset collection of the "Both Without Version" test. -/
theorem C5_witness :
    ([(⟨"hello", none⟩ : VersionedRecord), ⟨"world", none⟩] ≠ []) ∧
    checkVersions [⟨"hello", none⟩, ⟨"world", none⟩] = none ∧
    ∃ r, getMostRecentByDeploymentVersion [⟨"hello", none⟩, ⟨"world", none⟩] =
        Except.ok (some r) ∧ r ∈ [(⟨"hello", none⟩ : VersionedRecord), ⟨"world", none⟩] :=
  ⟨by decide, rfl, C5_nonempty_returns_record _ (by decide) rfl⟩

/-- Claim C6: the selector is deterministic over the collection's content — two
collections with the same records (unique names, any iteration order) and all
markers parsing produce the same selection result. -/
theorem C6_deterministic_under_permutation (l₁ l₂ : List VersionedRecord)
    (hperm : l₁.Perm l₂)
    (hnames : l₁.Pairwise (fun a b => a.name ≠ b.name))
    (hok : checkVersions l₁ = none) :
    getMostRecentByDeploymentVersion l₁ = getMostRecentByDeploymentVersion l₂ := by
  have hok₂ : checkVersions l₂ = none :=
    (checkVersions_eq_none_iff l₂).mpr fun x hx =>
      (checkVersions_eq_none_iff l₁).mp hok x (hperm.mem_iff.mpr hx)
  cases l₁ with
  | nil =>
    have h2 : l₂ = [] := hperm.symm.eq_nil
    rw [h2]
  | cons a rs =>
    cases l₂ with
    | nil => cases hperm.eq_nil
    | cons b ts =>
      have e₁ : getMostRecentByDeploymentVersion (a :: rs) =
          Except.ok (some (selectFrom a rs)) := by
        simp [getMostRecentByDeploymentVersion, hok]
      have e₂ : getMostRecentByDeploymentVersion (b :: ts) =
          Except.ok (some (selectFrom b ts)) := by
        simp [getMostRecentByDeploymentVersion, hok₂]
      rw [e₁, e₂]
      have hmem₁ : selectFrom a rs ∈ a :: rs := selectFrom_mem a rs
      have hmem₂ : selectFrom b ts ∈ a :: rs :=
        hperm.mem_iff.mpr (selectFrom_mem b ts)
      have h12 : keyLt (selectFrom a rs) (selectFrom b ts) = false :=
        selectFrom_not_lt a rs _ hmem₂
      have h21 : keyLt (selectFrom b ts) (selectFrom a rs) = false :=
        selectFrom_not_lt b ts _ (hperm.mem_iff.mp hmem₁)
      have hkey : recKey (selectFrom a rs) = recKey (selectFrom b ts) :=
        rawKeyLt_conn h12 h21
      have hname : (selectFrom a rs).name = (selectFrom b ts).name :=
        string_eq_of_data_eq (congrArg Prod.snd hkey)
      by_cases heq : selectFrom a rs = selectFrom b ts
      · rw [heq]
      · have hsymm : Symmetric (fun (x y : VersionedRecord) => x.name ≠ y.name) :=
          fun x y h e => h e.symm
        have hdiff := List.Pairwise.forall hsymm hnames hmem₁ hmem₂ heq
        exact absurd hname hdiff

/-- Witness for C6: the two-record collection in its two iteration orders. -/
theorem C6_witness :
    ([(⟨"world", some "1"⟩ : VersionedRecord), ⟨"hello", some "2"⟩].Perm
      [⟨"hello", some "2"⟩, ⟨"world", some "1"⟩]) ∧
    ([(⟨"world", some "1"⟩ : VersionedRecord), ⟨"hello", some "2"⟩].Pairwise
      (fun a b => a.name ≠ b.name)) ∧
    checkVersions [⟨"world", some "1"⟩, ⟨"hello", some "2"⟩] = none ∧
    getMostRecentByDeploymentVersion [⟨"world", some "1"⟩, ⟨"hello", some "2"⟩] =
      getMostRecentByDeploymentVersion [⟨"hello", some "2"⟩, ⟨"world", some "1"⟩] :=
  ⟨by decide, by decide, rfl,
    C6_deterministic_under_permutation _ _ (by decide) (by decide) rfl⟩

/-- Claim C7: on {"hello": unset, "world": unset} the selector returns the
record named "world" (the lexically greatest name) with no error. -/
theorem C7_unset_tie_resolved_lexically :
    getMostRecentByDeploymentVersion [⟨"hello", none⟩, ⟨"world", none⟩] =
      Except.ok (some ⟨"world", none⟩) := rfl

/-- Claim C8: the selector is a pure function of its input; on success the
selected record is one of the input records, unchanged (the embedding is a pure
function, so no mutation of inputs is possible; this theorem records that the
result is a member of the input collection, never a modified copy). -/
theorem C8_result_is_input_record (records : List VersionedRecord)
    (r : VersionedRecord)
    (h : getMostRecentByDeploymentVersion records = Except.ok (some r)) :
    r ∈ records :=
  (selected_spec h).1

/-- Witness for C8 on a singleton collection. -/
theorem C8_witness :
    getMostRecentByDeploymentVersion [(⟨"world", some "1"⟩ : VersionedRecord)] =
      Except.ok (some ⟨"world", some "1"⟩) ∧
    (⟨"world", some "1"⟩ : VersionedRecord) ∈ [(⟨"world", some "1"⟩ : VersionedRecord)] :=
  ⟨rfl, C8_result_is_input_record _ _ rfl⟩

/-! ### Controller embedding: `src/controller/work_item_link_type.go`

UUIDs (`uuid.UUID`) and timestamps (`time.Time`) are modelled as natural
numbers; Go pointers become `Option`. -/

/-- Fields of the `link.WorkItemLinkType` model entity that
`work_item_link_type.go` reads and writes. -/
structure WorkItemLinkType where
  id : Nat
  name : String
  description : Option String
  version : Int
  createdAt : Nat
  updatedAt : Nat
  forwardName : String
  reverseName : String
  topology : String
  linkCategoryID : Nat
  spaceID : Nat
deriving DecidableEq, Repr

/-- The zero value of the Go struct literal `link.WorkItemLinkType{}`. -/
def zeroWorkItemLinkType : WorkItemLinkType :=
  { id := 0, name := "", description := none, version := 0, createdAt := 0,
    updatedAt := 0, forwardName := "", reverseName := "", topology := "",
    linkCategoryID := 0, spaceID := 0 }

/-- Modelled from the spec: the topology validity check
`link.Topology.CheckValid` is not among the given sources; a topology string is
valid when it is one of the link package's topology constants. -/
def topologyCheckValid (t : String) : Bool :=
  t == "network" || t == "directed_network" || t == "dependency" || t == "tree"

/-- `app.GenericLinks`. -/
structure GenericLinks where
  self : Option String
  related : Option String
deriving DecidableEq, Repr

/-- `app.WorkItemLinkTypeAttributes`. -/
structure WorkItemLinkTypeAttributes where
  name : Option String
  description : Option String
  version : Option Int
  createdAt : Option Nat
  updatedAt : Option Nat
  forwardName : Option String
  reverseName : Option String
  topology : Option String
deriving DecidableEq, Repr

/-- `app.RelationWorkItemLinkCategoryData`. -/
structure RelationWorkItemLinkCategoryData where
  type : String
  id : Nat
deriving DecidableEq, Repr

/-- `app.RelationWorkItemLinkCategory`. -/
structure RelationWorkItemLinkCategory where
  data : Option RelationWorkItemLinkCategoryData
  links : Option GenericLinks
deriving DecidableEq, Repr

/-- `app.RelationSpacesData` (the space relation's data, with a pointer ID). -/
structure RelationSpacesData where
  type : String
  id : Option Nat
deriving DecidableEq, Repr

/-- `app.RelationSpaces`. -/
structure RelationSpaces where
  data : Option RelationSpacesData
  links : Option GenericLinks
deriving DecidableEq, Repr

/-- `app.WorkItemLinkTypeRelationships`. -/
structure WorkItemLinkTypeRelationships where
  linkCategory : Option RelationWorkItemLinkCategory
  space : Option RelationSpaces
deriving DecidableEq, Repr

/-- `app.WorkItemLinkTypeData`. -/
structure WorkItemLinkTypeData where
  type : String
  id : Option Nat
  attributes : Option WorkItemLinkTypeAttributes
  relationships : Option WorkItemLinkTypeRelationships
  links : Option GenericLinks
deriving DecidableEq, Repr

/-- `app.WorkItemLinkTypeSingle`. -/
structure WorkItemLinkTypeSingle where
  data : Option WorkItemLinkTypeData
deriving DecidableEq, Repr

/-- `link.EndpointWorkItemLinkTypes`. -/
def EndpointWorkItemLinkTypes : String := "workitemlinktypes"

/-- `link.EndpointWorkItemLinkCategories`. -/
def EndpointWorkItemLinkCategories : String := "workitemlinkcategories"

/-- `rest.AbsoluteURL(request, path)`, modelled as prefixing the request's base
URL (the request is modelled by its base URL string). -/
def absoluteURL (requestBaseURL path : String) : String :=
  requestBaseURL ++ path

/-- `app.SpaceHref`. -/
def spaceHref (spaceID : Nat) : String :=
  "/api/spaces/" ++ toString spaceID

/-- `app.WorkItemLinkCategoryHref`. -/
def workItemLinkCategoryHref (categoryID : Nat) : String :=
  "/api/workitemlinkcategories/" ++ toString categoryID

/-- `app.NewSpaceRelation(spaceID, spaceSelfURL)`. -/
def NewSpaceRelation (spaceID : Nat) (spaceSelfURL : String) : RelationSpaces :=
  { data := some { type := "spaces", id := some spaceID }
    links := some { self := some spaceSelfURL, related := some spaceSelfURL } }

/-- Errors produced by `ConvertWorkItemLinkTypeToModel`: bad-parameter errors
for missing/empty required fields, the topology validity error, and the nil
dereference the Go code would hit on a space relation without an ID. -/
inductive ConversionError
  | badParameter (param : String)
  | invalidTopology (topology : String)
  | nilPointer (param : String)
deriving DecidableEq, Repr

/-- `ConvertWorkItemLinkTypeFromModel` (work_item_link_type.go:299-334). -/
def ConvertWorkItemLinkTypeFromModel (request : String)
    (modelLinkType : WorkItemLinkType) : WorkItemLinkTypeSingle :=
  let spaceRelatedURL := absoluteURL request (spaceHref modelLinkType.spaceID)
  let linkCategoryRelatedURL :=
    absoluteURL request (workItemLinkCategoryHref modelLinkType.linkCategoryID)
  let topologyStr := modelLinkType.topology
  { data := some
      { type := EndpointWorkItemLinkTypes
        id := some modelLinkType.id
        attributes := some
          { name := some modelLinkType.name
            description := modelLinkType.description
            version := some modelLinkType.version
            createdAt := some modelLinkType.createdAt
            updatedAt := some modelLinkType.updatedAt
            forwardName := some modelLinkType.forwardName
            reverseName := some modelLinkType.reverseName
            topology := some topologyStr }
        relationships := some
          { linkCategory := some
              { data := some
                  { type := EndpointWorkItemLinkCategories
                    id := modelLinkType.linkCategoryID }
                links := some
                  { self := some linkCategoryRelatedURL
                    related := some linkCategoryRelatedURL } }
            space := some (NewSpaceRelation modelLinkType.spaceID spaceRelatedURL) }
        links := none } }

/-- The name assignment of `ConvertWorkItemLinkTypeToModel`: if present it must
not be empty. -/
def applyName (m : WorkItemLinkType) (name : Option String) :
    Except ConversionError WorkItemLinkType :=
  match name with
  | none => Except.ok m
  | some n =>
    if n = "" then Except.error (ConversionError.badParameter "data.attributes.name")
    else Except.ok { m with name := n }

/-- The forward-name assignment: if present it must not be empty. -/
def applyForwardName (m : WorkItemLinkType) (forwardName : Option String) :
    Except ConversionError WorkItemLinkType :=
  match forwardName with
  | none => Except.ok m
  | some n =>
    if n = "" then Except.error (ConversionError.badParameter "data.attributes.forward_name")
    else Except.ok { m with forwardName := n }

/-- The reverse-name assignment: if present it must not be empty. -/
def applyReverseName (m : WorkItemLinkType) (reverseName : Option String) :
    Except ConversionError WorkItemLinkType :=
  match reverseName with
  | none => Except.ok m
  | some n =>
    if n = "" then Except.error (ConversionError.badParameter "data.attributes.reverse_name")
    else Except.ok { m with reverseName := n }

/-- The topology assignment: if present it must pass `CheckValid`. -/
def applyTopology (m : WorkItemLinkType) (topology : Option String) :
    Except ConversionError WorkItemLinkType :=
  match topology with
  | none => Except.ok m
  | some t =>
    if topologyCheckValid t then Except.ok { m with topology := t }
    else Except.error (ConversionError.invalidTopology t)

/-- `ConvertWorkItemLinkTypeToModel` (work_item_link_type.go:338-406): values
are only overwritten in the zero model when set in the input. -/
def ConvertWorkItemLinkTypeToModel (appLinkType : WorkItemLinkTypeSingle) :
    Except ConversionError WorkItemLinkType :=
  match appLinkType.data with
  | none => Except.error (ConversionError.badParameter "data")
  | some data =>
    match data.attributes with
    | none => Except.error (ConversionError.badParameter "data.attributes")
    | some attrs =>
      match data.relationships with
      | none => Except.error (ConversionError.badParameter "data.relationships")
      | some rel =>
        let m := zeroWorkItemLinkType
        let m := match data.id with
          | some i => { m with id := i }
          | none => m
        match applyName m attrs.name with
        | Except.error e => Except.error e
        | Except.ok m =>
          let m := match attrs.description with
            | some d => { m with description := some d }
            | none => m
          let m := match attrs.version with
            | some v => { m with version := v }
            | none => m
          match applyForwardName m attrs.forwardName with
          | Except.error e => Except.error e
          | Except.ok m =>
            match applyReverseName m attrs.reverseName with
            | Except.error e => Except.error e
            | Except.ok m =>
              match applyTopology m attrs.topology with
              | Except.error e => Except.error e
              | Except.ok m =>
                let m := match rel.linkCategory with
                  | some lc =>
                    match lc.data with
                    | some lcd => { m with linkCategoryID := lcd.id }
                    | none => m
                  | none => m
                match rel.space with
                | some sp =>
                  match sp.data with
                  | some spd =>
                    match spd.id with
                    | some sid => Except.ok { m with spaceID := sid }
                    | none =>
                      Except.error (ConversionError.nilPointer "relationships.space.data.id")
                  | none => Except.ok m
                | none => Except.ok m

/-- Observable effects the write actions could perform if their bodies ran. -/
inductive ActionEffect
  | payloadConversion
  | authentication
  | dbTransaction
deriving DecidableEq, Repr

/-- HTTP-level outcomes a controller action can produce. -/
inductive ControllerResponse
  | methodNotAllowed
  | created
  | okResponse
  | jsonErrorResponse
deriving DecidableEq, Repr

/-- Outcome of running a controller action over a data store of type `σ`:
the response sent, the resulting store, and the effects performed. -/
structure ActionResult (σ : Type) where
  response : ControllerResponse
  store : σ
  effects : List ActionEffect
deriving Repr

/-- `WorkItemLinkTypeController.Create` (work_item_link_type.go:126-169).  The
code after the `if true { return ctx.MethodNotAllowed() }` guard — payload
conversion, authentication, the transactional create and the enrichment — is
unreachable and is therefore modelled by the arbitrary continuation `rest`. -/
def WorkItemLinkTypeController.Create {σ : Type} (rest : σ → ActionResult σ)
    (store : σ) : ActionResult σ :=
  if true then
    { response := ControllerResponse.methodNotAllowed, store := store, effects := [] }
  else rest store

/-- `WorkItemLinkTypeController.Delete` (work_item_link_type.go:172-188), with
the unreachable transactional delete modelled by the continuation `rest`. -/
def WorkItemLinkTypeController.Delete {σ : Type} (rest : σ → ActionResult σ)
    (store : σ) : ActionResult σ :=
  if true then
    { response := ControllerResponse.methodNotAllowed, store := store, effects := [] }
  else rest store

/-- `WorkItemLinkTypeController.Update` (work_item_link_type.go:259-296), with
the unreachable authentication, conversion and transactional save modelled by
the continuation `rest`. -/
def WorkItemLinkTypeController.Update {σ : Type} (rest : σ → ActionResult σ)
    (store : σ) : ActionResult σ :=
  if true then
    { response := ControllerResponse.methodNotAllowed, store := store, effects := [] }
  else rest store

/-- Claim C9: the Create, Delete and Update actions return MethodNotAllowed for
every request, for every possible behavior of their disabled bodies, performing
no payload conversion, authentication or database transaction and leaving the
data store unchanged. -/
theorem C9_write_endpoints_disabled {σ : Type}
    (restCreate restDelete restUpdate : σ → ActionResult σ) (store : σ) :
    WorkItemLinkTypeController.Create restCreate store =
      { response := ControllerResponse.methodNotAllowed, store := store, effects := [] } ∧
    WorkItemLinkTypeController.Delete restDelete store =
      { response := ControllerResponse.methodNotAllowed, store := store, effects := [] } ∧
    WorkItemLinkTypeController.Update restUpdate store =
      { response := ControllerResponse.methodNotAllowed, store := store, effects := [] } :=
  ⟨rfl, rfl, rfl⟩

/-- Claim C10: converting a model link type to the REST representation and back
succeeds whenever the topology is valid and the name, forward name and reverse
name are non-empty, and recovers the original model on every field except the
timestamps, which come back as the zero value. -/
theorem C10_conversion_roundtrip (request : String) (m : WorkItemLinkType)
    (hname : m.name ≠ "") (hfwd : m.forwardName ≠ "") (hrev : m.reverseName ≠ "")
    (htopo : topologyCheckValid m.topology = true) :
    ConvertWorkItemLinkTypeToModel (ConvertWorkItemLinkTypeFromModel request m) =
      Except.ok { m with createdAt := 0, updatedAt := 0 } := by
  cases hd : m.description with
  | none =>
    simp [ConvertWorkItemLinkTypeFromModel, ConvertWorkItemLinkTypeToModel,
      NewSpaceRelation, applyName, applyForwardName, applyReverseName, applyTopology,
      zeroWorkItemLinkType, hname, hfwd, hrev, htopo, hd]
  | some d =>
    simp [ConvertWorkItemLinkTypeFromModel, ConvertWorkItemLinkTypeToModel,
      NewSpaceRelation, applyName, applyForwardName, applyReverseName, applyTopology,
      zeroWorkItemLinkType, hname, hfwd, hrev, htopo, hd]

/-- Witness for C10 at a concrete model link type. -/
theorem C10_witness :
    let m : WorkItemLinkType :=
      { id := 7, name := "relates to", description := some "d", version := 3,
        createdAt := 11, updatedAt := 12, forwardName := "relates to",
        reverseName := "is related to", topology := "network",
        linkCategoryID := 5, spaceID := 9 }
    m.name ≠ "" ∧ m.forwardName ≠ "" ∧ m.reverseName ≠ "" ∧
    topologyCheckValid m.topology = true ∧
    ConvertWorkItemLinkTypeToModel (ConvertWorkItemLinkTypeFromModel "http://x" m) =
      Except.ok { m with createdAt := 0, updatedAt := 0 } :=
  ⟨by decide, by decide, by decide, rfl,
    C10_conversion_roundtrip "http://x" _ (by decide) (by decide) (by decide) rfl⟩
